import Mathlib

/-!
# Verification of the NC-Code analyzer core (nc_checker_ultimate_v5.py)

Shallow embedding of the analysis core: block accumulation (`BlockData`),
the line-scanning state machine (`NCAnalyzer.analyze`), global aggregation
(`get_global_stats`) and the limit checker (`App.open_limit_checker.check`).

Modelling conventions:
* Python floats are modelled as rationals (`ℚ`); every numeric literal the
  program manipulates is a finite decimal, and the only operations used are
  parsing, `min`, `max` and order comparisons, which are exact.
* Python strings are modelled as `String` / `List Char`; `str.upper`,
  `str.strip` and the regular-expression character classes are modelled on
  their ASCII behaviour, which covers the token alphabet of NC programs.
* `float(...)` on a string is modelled by `pyFloat` (sign, decimal digits,
  optional fraction, optional exponent); the non-finite spellings
  (`inf`, `nan`) and digit-group underscores, which denote no rational,
  are outside the model.
* The regular-expression scans (`re.findall`, `re.search`) are modelled by
  recursive scanners that try each start position left to right and resume
  after the end of a match, exactly as the `re` module does for these
  backtracking-free patterns.
-/

/-- The characters `str.strip()` removes and `\s` matches (ASCII part). -/
def isPySpace (c : Char) : Bool :=
  c = ' ' ∨ c = '\t' ∨ c = '\n' ∨ c = '\x0d' ∨ c = '\x0b' ∨ c = '\x0c'

/-- `str.strip()`: drop leading and trailing whitespace. -/
def pyStrip (l : List Char) : List Char :=
  ((l.dropWhile isPySpace).reverse.dropWhile isPySpace).reverse

/-- `line.split(';')[0]`: the prefix before the first `;`. -/
def beforeSemicolon (l : List Char) : List Char :=
  l.takeWhile (fun c => ¬ c = ';')

/-- The numeric value of a list of decimal digits (`int` / the integer part
of `float` on a digit string). -/
def digitsToNat (ds : List Char) : Nat :=
  ds.foldl (fun n c => 10 * n + (c.toNat - '0'.toNat)) 0

/-- The exponent suffix accepted by `float`: empty, or `e`/`E`, an optional
sign and digits, consuming the whole remainder. -/
def parseExp (l : List Char) : Option Int :=
  if l = [] then some 0
  else if l.head? = some 'e' ∨ l.head? = some 'E' then
    let r := l.tail
    let negE : Bool := r.head? = some '-'
    let r1 := if r.head? = some '-' ∨ r.head? = some '+' then r.tail else r
    let ds := r1.takeWhile Char.isDigit
    if ds = [] ∨ ¬ r1.dropWhile Char.isDigit = [] then none
    else some (if negE then -(digitsToNat ds : Int) else (digitsToNat ds : Int))
  else none

/-- The exact rational denoted by a parsed decimal
`[-] ip . fp e E`, namely `± ip.fp × 10^E`, assembled as a single integer
fraction (`digits(ip ++ fp) × 10^E / 10^|fp|`). -/
def decimalValue (neg : Bool) (ip fp : List Char) (e : Int) : ℚ :=
  let n : Nat := digitsToNat (ip ++ fp)
  let shift : Int := e - (fp.length : Int)
  let num : Nat := if 0 ≤ shift then n * 10 ^ shift.toNat else n
  let den : Nat := if 0 ≤ shift then 1 else 10 ^ (-shift).toNat
  Rat.divInt (if neg then -(num : Int) else (num : Int)) (den : Int)

/-- `float(s)` on a finite decimal string, `none` where `float` raises
`ValueError`: optional surrounding whitespace, optional sign, digits with an
optional fractional part (at least one digit overall), optional exponent. -/
def pyFloat (l0 : List Char) : Option ℚ :=
  let l := pyStrip l0
  let neg : Bool := l.head? = some '-'
  let l1 := if l.head? = some '-' ∨ l.head? = some '+' then l.tail else l
  let ip := l1.takeWhile Char.isDigit
  let l2 := l1.dropWhile Char.isDigit
  let hasDot : Bool := l2.head? = some '.'
  let fp := if hasDot then l2.tail.takeWhile Char.isDigit else []
  let l4 := if hasDot then l2.tail.dropWhile Char.isDigit else l2
  if ip = [] ∧ fp = [] then none
  else
    match parseExp l4 with
    | none => none
    | some e => some (decimalValue neg ip fp e)

/-- `NCAnalyzer.parse_value`: `float(text)`, with `ValueError` mapped to
`None`. -/
def parse_value (l : List Char) : Option ℚ := pyFloat l

/-- The suffix after the first `)`, together with the characters before it:
the lazy tail of `re.search(r'\((.*?)\)', line)` once a `(` was found. -/
def splitAtClose : List Char → Option (List Char × List Char)
  | [] => none
  | c :: rest =>
    if c = ')' then some ([], rest)
    else (splitAtClose rest).map (fun p => (c :: p.1, p.2))

/-- `re.search(r'\((.*?)\)', line)`: the text between the leftmost `(` that
is followed by a `)` and the nearest such `)`.  (If the first `(` has no
closing `)`, no later `(` can have one either, so scanning on is faithful.) -/
def commentSearch : List Char → Option (List Char)
  | [] => none
  | c :: rest =>
    if c = '(' then
      match splitAtClose rest with
      | some p => some p.1
      | none => commentSearch rest
    else commentSearch rest

/-- The number part of the coordinate pattern, `[-]?\d+\.?\d*`: returns the
matched characters and the remainder after the match. -/
def matchUnsigned (l : List Char) : Option (List Char × List Char) :=
  let ds := l.takeWhile Char.isDigit
  let l2 := l.dropWhile Char.isDigit
  if ds = [] then none
  else
    if l2.head? = some '.' then
      some (ds ++ '.' :: l2.tail.takeWhile Char.isDigit, l2.tail.dropWhile Char.isDigit)
    else some (ds, l2)

/-- `[-]?` then `\d+\.?\d*`. -/
def matchNum (l : List Char) : Option (List Char × List Char) :=
  if l.head? = some '-' then
    (matchUnsigned l.tail).map (fun p => ('-' :: p.1, p.2))
  else matchUnsigned l

/-- `re.findall(r'([XYZ])\s*([-]?\d+\.?\d*)', s)`: left-to-right
non-overlapping scan; fuel bounds the recursion (the input's length always
suffices). -/
def coordFindAllAux : Nat → List Char → List (Char × List Char)
  | 0, _ => []
  | _ + 1, [] => []
  | fuel + 1, c :: rest =>
    if c = 'X' ∨ c = 'Y' ∨ c = 'Z' then
      match matchNum (rest.dropWhile isPySpace) with
      | some p => (c, p.1) :: coordFindAllAux fuel p.2
      | none => coordFindAllAux fuel rest
    else coordFindAllAux fuel rest

def coordFindAll (l : List Char) : List (Char × List Char) :=
  coordFindAllAux l.length l

/-- `re.findall(r'G(\d+)', s)` followed by `int(...)` on each group. -/
def findGAux : Nat → List Char → List Nat
  | 0, _ => []
  | _ + 1, [] => []
  | fuel + 1, c :: rest =>
    if c = 'G' then
      let ds := rest.takeWhile Char.isDigit
      if ds = [] then findGAux fuel rest
      else digitsToNat ds :: findGAux fuel (rest.dropWhile Char.isDigit)
    else findGAux fuel rest

def findG (l : List Char) : List Nat :=
  findGAux l.length l

/-- `re.search(r'S\s*(\d+)', s)`: the digit group of the first match. -/
def sSearch : List Char → Option (List Char)
  | [] => none
  | c :: rest =>
    if c = 'S' then
      let l1 := rest.dropWhile isPySpace
      let ds := l1.takeWhile Char.isDigit
      if ds = [] then sSearch rest else some ds
    else sSearch rest

/-- `re.search(r'F\s*(\d+\.?\d*)', s)`: the number group of the first match. -/
def fSearch : List Char → Option (List Char)
  | [] => none
  | c :: rest =>
    if c = 'F' then
      match matchUnsigned (rest.dropWhile isPySpace) with
      | some p => some p.1
      | none => fSearch rest
    else fSearch rest

/-- `min(vals)` over a possibly empty list: `none` exactly when empty. -/
def minQ? : List ℚ → Option ℚ
  | [] => none
  | v :: vs =>
    some (match minQ? vs with
          | none => v
          | some m => min v m)

/-- `max(vals)` over a possibly empty list: `none` exactly when empty. -/
def maxQ? : List ℚ → Option ℚ
  | [] => none
  | v :: vs =>
    some (match maxQ? vs with
          | none => v
          | some m => max v m)

/-- `BlockData`: one program segment's accumulated samples and errors. -/
structure BlockData where
  name : String
  rapidX : List ℚ
  rapidY : List ℚ
  rapidZ : List ℚ
  cutX : List ℚ
  cutY : List ℚ
  cutZ : List ℚ
  s_vals : List ℚ
  f_vals : List ℚ
  errors : List String
deriving DecidableEq, Repr

/-- A fresh block, as `BlockData.__init__`. -/
def mkBlock (n : String) : BlockData :=
  ⟨n, [], [], [], [], [], [], [], [], []⟩

/-- `self.rapid[axis]` (the empty list for a key outside the dictionary). -/
def BlockData.rapidAt (b : BlockData) (axis : Char) : List ℚ :=
  if axis = 'X' then b.rapidX
  else if axis = 'Y' then b.rapidY
  else if axis = 'Z' then b.rapidZ
  else []

/-- `self.cut[axis]` (the empty list for a key outside the dictionary). -/
def BlockData.cutAt (b : BlockData) (axis : Char) : List ℚ :=
  if axis = 'X' then b.cutX
  else if axis = 'Y' then b.cutY
  else if axis = 'Z' then b.cutZ
  else []

/-- `BlockData.add_val`: append to the rapid or cut list of the axis; a
no-op when the axis is not a key of the target dictionary. -/
def BlockData.add_val (b : BlockData) (axis : Char) (v : ℚ) (is_rapid : Bool) :
    BlockData :=
  if is_rapid then
    if axis = 'X' then { b with rapidX := b.rapidX ++ [v] }
    else if axis = 'Y' then { b with rapidY := b.rapidY ++ [v] }
    else if axis = 'Z' then { b with rapidZ := b.rapidZ ++ [v] }
    else b
  else
    if axis = 'X' then { b with cutX := b.cutX ++ [v] }
    else if axis = 'Y' then { b with cutY := b.cutY ++ [v] }
    else if axis = 'Z' then { b with cutZ := b.cutZ ++ [v] }
    else b

/-- `BlockData.get_raw_min_max`: numeric (min, max) of the samples selected
by `mode` (`"rapid"`, `"cut"` or `"both"`), `(none, none)` when empty. -/
def BlockData.get_raw_min_max (b : BlockData) (axis : Char) (mode : String) :
    Option ℚ × Option ℚ :=
  let vals :=
    (if mode = "rapid" ∨ mode = "both" then b.rapidAt axis else [])
      ++ (if mode = "cut" ∨ mode = "both" then b.cutAt axis else [])
  (minQ? vals, maxQ? vals)

/-- The scan state `analyze` threads through the line loop: the finished
blocks, the current block (`self.current_block`, always the last entry of
`self.blocks`), the `has_g50_global` latch and the `is_rapid_mode` flag. -/
structure ScanState where
  done : List BlockData
  cur : BlockData
  has_g50 : Bool
  is_rapid : Bool
deriving DecidableEq, Repr

/-- The comment-stripped line: `line.split(';')[0].strip()`. -/
def stripContent (line : List Char) : List Char :=
  pyStrip (beforeSemicolon line)

/-- The G-code numbers extracted from a line, `re_g` over the uppercased
comment-stripped content. -/
def lineGs (line : List Char) : List Nat :=
  findG ((stripContent line).map Char.toUpper)

/-- Block switching: when the original line holds a parenthesized comment,
append a fresh block named after it and make it current. -/
def blockStep (lineNum : Nat) (line : List Char) (st : ScanState) : ScanState :=
  match commentSearch line with
  | some inner =>
    { st with
      done := st.done ++ [st.cur]
      cur := mkBlock ("Line" ++ toString lineNum ++ ": " ++ (pyStrip inner).asString) }
  | none => st

/-- Motion-mode update: `G0` sets rapid, then any of `G1`/`G2`/`G3` sets
cut; both checks run unconditionally in this order. -/
def modeAfter (gs : List Nat) (is_rapid : Bool) : Bool :=
  let r1 := if gs.contains 0 then true else is_rapid
  if gs.any (fun g => g == 1 || g == 2 || g == 3) then false else r1

/-- Coordinate dispatch: each `(axis, val_str)` pair is parsed and, when the
parse succeeds, stored under the current motion mode. -/
def addCoords (isR : Bool) (b : BlockData) (coords : List (Char × List Char)) :
    BlockData :=
  coords.foldl
    (fun b pr =>
      match parse_value pr.2 with
      | some v => b.add_val pr.1 v isR
      | none => b)
    b

/-- The safety-violation message appended for G96 without a prior G50. -/
def errMsg (lineNum : Nat) : String :=
  "[Line " ++ toString lineNum ++ "] 危険: G50なしでG96使用"

/-- The latch update: `if 50 in g_codes: has_g50_global = True` (only the
lathe profile runs the safety check). -/
def g50After (machine : String) (gs : List Nat) (g : Bool) : Bool :=
  if machine = "FANUC_Lathe" ∧ gs.contains 50 then true else g

/-- Steps 4-6 of the line body on the current block: coordinate dispatch,
first `S`/`F` sample, and the G96 safety check (run with the already
updated latch, as the code updates it first). -/
def curAfter (machine : String) (lineNum : Nat) (up : List Char)
    (isR g50after : Bool) (b : BlockData) : BlockData :=
  let cur1 := addCoords isR b (coordFindAll up)
  let cur2 :=
    match sSearch up with
    | some ds => { cur1 with s_vals := cur1.s_vals ++ [(digitsToNat ds : ℚ)] }
    | none => cur1
  let cur3 :=
    match fSearch up with
    | some fs =>
      -- `float` cannot raise here: the group is `\d+\.?\d*`.
      match pyFloat fs with
      | some v => { cur2 with f_vals := cur2.f_vals ++ [v] }
      | none => cur2
    | none => cur2
  if machine = "FANUC_Lathe" ∧ (findG up).contains 96 ∧ g50after = false then
    { cur3 with errors := cur3.errors ++ [errMsg lineNum] }
  else cur3

/-- One iteration of `analyze`'s line loop. -/
def processLine (machine : String) (lineNum : Nat) (line : List Char)
    (st : ScanState) : ScanState :=
  let content := stripContent line
  if content = [] then st
  else
    let st1 := blockStep lineNum line st
    let up := content.map Char.toUpper
    let gs := findG up
    let isR := modeAfter gs st.is_rapid
    let g50after := g50After machine gs st.has_g50
    { done := st1.done
      cur := curAfter machine lineNum up isR g50after st1.cur
      has_g50 := g50after
      is_rapid := isR }

/-- The line loop from line number `i` on. -/
def scanFrom (machine : String) (st : ScanState) (i : Nat) :
    List (List Char) → ScanState
  | [] => st
  | l :: rest => scanFrom machine (processLine machine i l st) (i + 1) rest

/-- The state at the top of `analyze`: the implicit header block is current,
the latch is down, the mode defaults to rapid (G00). -/
def initState : ScanState :=
  ⟨[], mkBlock "Header / Setup", false, true⟩

/-- `NCAnalyzer.analyze`: split on newlines, fold the line machine over the
lines (1-indexed), return the block list. -/
def analyze (nc_code : String) (machine_type : String) : List BlockData :=
  let lines := nc_code.data.splitOn '\n'
  let fin := scanFrom machine_type initState 1 lines
  fin.done ++ [fin.cur]

/-- `NCAnalyzer.get_global_stats`: per-axis (min, max) over every block's
rapid and cut samples, and the maxima of the spindle and feed samples. -/
structure GlobalStats where
  x : Option ℚ × Option ℚ
  y : Option ℚ × Option ℚ
  z : Option ℚ × Option ℚ
  max_s : ℚ
  max_f : ℚ
deriving DecidableEq, Repr

def get_global_stats (blocks : List BlockData) : GlobalStats :=
  let xs := blocks.foldl (fun a b => a ++ b.rapidX ++ b.cutX) []
  let ys := blocks.foldl (fun a b => a ++ b.rapidY ++ b.cutY) []
  let zs := blocks.foldl (fun a b => a ++ b.rapidZ ++ b.cutZ) []
  let ss := blocks.foldl (fun a b => a ++ b.s_vals) []
  let fs := blocks.foldl (fun a b => a ++ b.f_vals) []
  { x := (minQ? xs, maxQ? xs)
    y := (minQ? ys, maxQ? ys)
    z := (minQ? zs, maxQ? zs)
    max_s := (maxQ? ss).getD 0
    max_f := (maxQ? fs).getD 0 }

/-- One recorded bound failure: the f-string
`"❌ {axis} Min違反: {p_min} < {u_min}"` names the axis, the kind of bound,
the observed value and the limit as entered. -/
structure Violation where
  axis : Char
  isMin : Bool
  observed : ℚ
  limit : String
deriving DecidableEq, Repr

/-- The per-axis bound entry strings (`Entry.get()`; empty = not supplied). -/
structure LimitEntries where
  xmin : String
  xmax : String
  ymin : String
  ymax : String
  zmin : String
  zmax : String
deriving DecidableEq, Repr

/-- The `if u_min:` arm of `check`: when the entry is nonempty, parse it (a
parse failure is swallowed by the bare `except`) and record a violation when
the observed minimum is below it. -/
def boundMinStep (axis : Char) (p_min : ℚ) (u_min : String)
    (acc : List Violation × Bool) : List Violation × Bool :=
  if ¬ u_min = "" then
    match pyFloat u_min.data with
    | some m =>
      if p_min < m then (acc.1 ++ [⟨axis, true, p_min, u_min⟩], false) else acc
    | none => acc
  else acc

/-- The `if u_max:` arm of `check`.  `p_max > float(u_max)` sits inside the
same bare try: a `None` p_max would raise and be swallowed exactly like a
parse failure, hence the joint match. -/
def boundMaxStep (axis : Char) (p_max? : Option ℚ) (u_max : String)
    (acc : List Violation × Bool) : List Violation × Bool :=
  if ¬ u_max = "" then
    match p_max?, pyFloat u_max.data with
    | some p_max, some m =>
      if p_max > m then (acc.1 ++ [⟨axis, false, p_max, u_max⟩], false) else acc
    | _, _ => acc
  else acc

/-- One axis of the `check` loop body, threading `(results, safe)`: skip the
axis entirely when its observed minimum is `None` (no recorded data). -/
def checkAxisStep (axis : Char) (stat : Option ℚ × Option ℚ)
    (u_min u_max : String) (acc : List Violation × Bool) :
    List Violation × Bool :=
  match stat.1 with
  | none => acc
  | some p_min => boundMaxStep axis stat.2 u_max (boundMinStep axis p_min u_min acc)

/-- The `(results, safe)` pair after `check`'s loop over the axes X, Y, Z. -/
def check_run (gs : GlobalStats) (e : LimitEntries) : List Violation × Bool :=
  checkAxisStep 'Z' gs.z e.zmin e.zmax
    (checkAxisStep 'Y' gs.y e.ymin e.ymax
      (checkAxisStep 'X' gs.x e.xmin e.xmax ([], true)))

/-- The three result labels of the limit checker. -/
inductive CheckOutcome where
  | safe
  | noConstraints
  | violation (msgs : List Violation)
deriving DecidableEq, Repr

/-- `App.open_limit_checker.check`: run the axis loop, then label the
result (`✅ SAFE`, `⚠️ 条件なし`, or the joined violation list). -/
def check (gs : GlobalStats) (e : LimitEntries) : CheckOutcome :=
  let out := check_run gs e
  if out.2 = true ∧ out.1 = [] then .safe
  else if out.2 = true then .noConstraints
  else .violation out.1

/-! ## Derived observations used by the statements -/

/-- All error messages of a scan state, in program order. -/
def errorsOf (st : ScanState) : List String :=
  ((st.done ++ [st.cur]).map BlockData.errors).flatten

/-- The name of the first block of the program under construction. -/
def firstName (st : ScanState) : Option String :=
  ((st.done ++ [st.cur]).head?).map BlockData.name

/-- Option-level minimum: the minimum of the union of two sample sets. -/
def combineMin : Option ℚ → Option ℚ → Option ℚ
  | none, b => b
  | some a, none => some a
  | some a, some b => some (min a b)

/-- Option-level maximum: the maximum of the union of two sample sets. -/
def combineMax : Option ℚ → Option ℚ → Option ℚ
  | none, b => b
  | some a, none => some a
  | some a, some b => some (max a b)

/-- The coordinate values a line contributes to axis `a`, in match order. -/
def coordValsFor (a : Char) (coords : List (Char × List Char)) : List ℚ :=
  coords.filterMap (fun pr => if pr.1 = a then parse_value pr.2 else none)

/-- The uppercased comment-stripped content of a line. -/
def upContent (line : List Char) : List Char :=
  (stripContent line).map Char.toUpper

/-- The spindle sample a line contributes (at most one, the first match). -/
def sOf (up : List Char) : List ℚ :=
  match sSearch up with
  | some ds => [(digitsToNat ds : ℚ)]
  | none => []

/-- The feed sample a line contributes (at most one, the first match). -/
def fOf (up : List Char) : List ℚ :=
  match fSearch up with
  | some fs =>
    match pyFloat fs with
    | some v => [v]
    | none => []
  | none => []

/-- The error message a line contributes, given the already-updated latch. -/
def errOf (machine : String) (lineNum : Nat) (up : List Char)
    (g50after : Bool) : List String :=
  if machine = "FANUC_Lathe" ∧ (findG up).contains 96 ∧ g50after = false then
    [errMsg lineNum]
  else []

/-- The total number of stored coordinate samples of a block. -/
def sampleCount (b : BlockData) : Nat :=
  b.rapidX.length + b.rapidY.length + b.rapidZ.length
    + b.cutX.length + b.cutY.length + b.cutZ.length

/-- Modelled from the spec: "an axis letter (X, Y, or Z) immediately
followed by an optionally-signed decimal number" — the same scan as
`coordFindAll` but with no whitespace admitted between the axis letter and
the number, for comparison against the implemented pattern. -/
def specCoordFindAllAux : Nat → List Char → List (Char × List Char)
  | 0, _ => []
  | _ + 1, [] => []
  | fuel + 1, c :: rest =>
    if c = 'X' ∨ c = 'Y' ∨ c = 'Z' then
      match matchNum rest with
      | some p => (c, p.1) :: specCoordFindAllAux fuel p.2
      | none => specCoordFindAllAux fuel rest
    else specCoordFindAllAux fuel rest

def specCoordFindAll (l : List Char) : List (Char × List Char) :=
  specCoordFindAllAux l.length l

/-- A bound-entry string after the treatment the spec promises for
malformed input: a field that does not parse as a number behaves as if it
had not been supplied. -/
def sanitizeEntry (s : String) : String :=
  if pyFloat s.data = none then "" else s

/-- `sanitizeEntry` applied to every field. -/
def sanitizeEntries (e : LimitEntries) : LimitEntries :=
  ⟨sanitizeEntry e.xmin, sanitizeEntry e.xmax, sanitizeEntry e.ymin,
   sanitizeEntry e.ymax, sanitizeEntry e.zmin, sanitizeEntry e.zmax⟩

/-! ## Lemmas about the sample minima and maxima -/

lemma minQ?_append (l1 l2 : List ℚ) :
    minQ? (l1 ++ l2) = combineMin (minQ? l1) (minQ? l2) := by
  induction l1 with
  | nil => cases h : minQ? l2 <;> simp [minQ?, combineMin, h]
  | cons a t ih =>
    simp only [List.cons_append, minQ?]
    cases h1 : minQ? t <;> cases h2 : minQ? l2 <;>
      simp [ih, h1, h2, combineMin, min_assoc]

lemma maxQ?_append (l1 l2 : List ℚ) :
    maxQ? (l1 ++ l2) = combineMax (maxQ? l1) (maxQ? l2) := by
  induction l1 with
  | nil => cases h : maxQ? l2 <;> simp [maxQ?, combineMax, h]
  | cons a t ih =>
    simp only [List.cons_append, maxQ?]
    cases h1 : maxQ? t <;> cases h2 : maxQ? l2 <;>
      simp [ih, h1, h2, combineMax, max_assoc]

lemma minQ?_eq_none (l : List ℚ) : minQ? l = none ↔ l = [] := by
  cases l <;> simp [minQ?]

lemma maxQ?_eq_none (l : List ℚ) : maxQ? l = none ↔ l = [] := by
  cases l <;> simp [maxQ?]

/-- The `"both"` selection, reduced. -/
lemma raw_both (b : BlockData) (axis : Char) :
    b.get_raw_min_max axis "both" =
      (minQ? (b.rapidAt axis ++ b.cutAt axis),
       maxQ? (b.rapidAt axis ++ b.cutAt axis)) := rfl

/-- The `"rapid"` selection, reduced. -/
lemma raw_rapid (b : BlockData) (axis : Char) :
    b.get_raw_min_max axis "rapid" =
      (minQ? (b.rapidAt axis), maxQ? (b.rapidAt axis)) := by
  show (minQ? (b.rapidAt axis ++ []), maxQ? (b.rapidAt axis ++ [])) = _
  rw [List.append_nil]

/-- The `"cut"` selection, reduced. -/
lemma raw_cut (b : BlockData) (axis : Char) :
    b.get_raw_min_max axis "cut" =
      (minQ? (b.cutAt axis), maxQ? (b.cutAt axis)) := rfl

/-- C6: for every block and axis, the `"both"` query is the option-level
union of the `"rapid"` and `"cut"` queries, and it is `(none, none)`
exactly when both per-mode sample lists are empty. -/
theorem raw_min_max_both_is_union (b : BlockData) (axis : Char) :
    b.get_raw_min_max axis "both" =
      (combineMin (b.get_raw_min_max axis "rapid").1
         (b.get_raw_min_max axis "cut").1,
       combineMax (b.get_raw_min_max axis "rapid").2
         (b.get_raw_min_max axis "cut").2)
    ∧ (b.get_raw_min_max axis "both" = (none, none) ↔
        b.rapidAt axis = [] ∧ b.cutAt axis = []) := by
  constructor
  · rw [raw_both, raw_rapid, raw_cut, minQ?_append, maxQ?_append]
  · rw [raw_both, Prod.ext_iff]
    simp [minQ?_eq_none, maxQ?_eq_none]

/-- C3: the spec's worked example, line by line: two blocks, the header
holding rapid X/Y 10/5 and cut X/Z 20/−3, the `Line3: Facing` block holding
spindle 500, feed 0.2 (= 1/5) and the one G96-without-G50 error for
line 3. -/
theorem analyze_worked_example :
    analyze "G0 X10 Y5\nG1 X20 Z-3\n(Facing) G96 S500 F0.2" "FANUC_Lathe" =
      [{ name := "Header / Setup", rapidX := [10], rapidY := [5], rapidZ := [],
         cutX := [20], cutY := [], cutZ := [-3], s_vals := [], f_vals := [],
         errors := [] },
       { name := "Line3: Facing", rapidX := [], rapidY := [], rapidZ := [],
         cutX := [], cutY := [], cutZ := [], s_vals := [500],
         f_vals := [mkRat 1 5], errors := [errMsg 3] }]
    ∧ errMsg 3 = "[Line 3] 危険: G50なしでG96使用" := by
  constructor
  · decide
  · rfl

/-! ## The limit checker's reachable labels (C1, C8) -/

lemma isEmpty_append_eq {α : Type} (l1 l2 : List α) :
    (l1 ++ l2).isEmpty = (l1.isEmpty && l2.isEmpty) := by
  cases l1 <;> simp

lemma boundMinStep_spec (axis : Char) (p_min : ℚ) (u_min : String)
    (acc : List Violation × Bool) :
    ∃ n, boundMinStep axis p_min u_min acc = (acc.1 ++ n, acc.2 && n.isEmpty) := by
  unfold boundMinStep
  by_cases h : u_min = ""
  · exact ⟨[], by simp [h]⟩
  · cases hp : pyFloat u_min.data with
    | none => exact ⟨[], by simp [h, hp]⟩
    | some m =>
      by_cases hlt : p_min < m
      · exact ⟨[⟨axis, true, p_min, u_min⟩], by simp [h, hp, hlt]⟩
      · exact ⟨[], by simp [h, hp, hlt]⟩

lemma boundMaxStep_spec (axis : Char) (p_max? : Option ℚ) (u_max : String)
    (acc : List Violation × Bool) :
    ∃ n, boundMaxStep axis p_max? u_max acc = (acc.1 ++ n, acc.2 && n.isEmpty) := by
  unfold boundMaxStep
  by_cases h : u_max = ""
  · exact ⟨[], by simp [h]⟩
  · cases hpm : p_max? with
    | none => exact ⟨[], by simp [h, hpm]⟩
    | some p_max =>
      cases hp : pyFloat u_max.data with
      | none => exact ⟨[], by simp [h, hpm, hp]⟩
      | some m =>
        by_cases hgt : p_max > m
        · exact ⟨[⟨axis, false, p_max, u_max⟩], by simp [h, hpm, hp, hgt]⟩
        · exact ⟨[], by simp [h, hpm, hp, hgt]⟩

lemma checkAxisStep_spec (axis : Char) (stat : Option ℚ × Option ℚ)
    (u_min u_max : String) (acc : List Violation × Bool) :
    ∃ n, checkAxisStep axis stat u_min u_max acc = (acc.1 ++ n, acc.2 && n.isEmpty) := by
  cases hs : stat.1 with
  | none => exact ⟨[], by simp [checkAxisStep, hs]⟩
  | some p_min =>
    obtain ⟨n1, h1⟩ := boundMinStep_spec axis p_min u_min acc
    obtain ⟨n2, h2⟩ := boundMaxStep_spec axis stat.2 u_max (boundMinStep axis p_min u_min acc)
    refine ⟨n1 ++ n2, ?_⟩
    simp only [checkAxisStep, hs]
    rw [h2, h1]
    simp [List.append_assoc, Bool.and_assoc, isEmpty_append_eq]

lemma check_run_spec (gs : GlobalStats) (e : LimitEntries) :
    ∃ n, check_run gs e = (n, n.isEmpty) := by
  obtain ⟨n1, h1⟩ := checkAxisStep_spec 'X' gs.x e.xmin e.xmax ([], true)
  obtain ⟨n2, h2⟩ := checkAxisStep_spec 'Y' gs.y e.ymin e.ymax
    (checkAxisStep 'X' gs.x e.xmin e.xmax ([], true))
  obtain ⟨n3, h3⟩ := checkAxisStep_spec 'Z' gs.z e.zmin e.zmax
    (checkAxisStep 'Y' gs.y e.ymin e.ymax (checkAxisStep 'X' gs.x e.xmin e.xmax ([], true)))
  refine ⟨n1 ++ n2 ++ n3, ?_⟩
  unfold check_run
  rw [h3, h2, h1]
  simp [isEmpty_append_eq, Bool.and_assoc]

lemma checkAxisStep_no_entries (axis : Char) (stat : Option ℚ × Option ℚ)
    (acc : List Violation × Bool) : checkAxisStep axis stat "" "" acc = acc := by
  unfold checkAxisStep boundMinStep boundMaxStep
  cases stat.1 <;> simp

/-- C1 (amended): the checker's label is decided by the violation list
alone: a nonempty list yields `VIOLATION` with every recorded failure, an
empty list yields `SAFE` — also when no bound was supplied at all — and the
`NO-CONSTRAINTS` label is unreachable. -/
theorem limit_check_classification (gs : GlobalStats) (e : LimitEntries) :
    (check gs e =
      if (check_run gs e).1 = [] then CheckOutcome.safe
      else CheckOutcome.violation (check_run gs e).1)
    ∧ check gs e ≠ CheckOutcome.noConstraints
    ∧ check gs ⟨"", "", "", "", "", ""⟩ = CheckOutcome.safe := by
  obtain ⟨n, hn⟩ := check_run_spec gs e
  refine ⟨?_, ?_, ?_⟩
  · rw [show check gs e = _ from rfl, hn]
    cases n <;> simp [check, hn]
  · cases n <;> simp [check, hn]
  · simp [check, check_run, checkAxisStep_no_entries]

/-- C1 (counterexample): on a program whose X samples are −5 and 120 and a
query with no bound supplied for any axis, the checker answers `SAFE`, not
`NO-CONSTRAINTS`. -/
theorem limit_check_no_bounds_cex :
    check (get_global_stats (analyze "G0 X-5\nG1 X120" "FANUC_Lathe"))
        ⟨"", "", "", "", "", ""⟩ = CheckOutcome.safe
    ∧ CheckOutcome.safe ≠ CheckOutcome.noConstraints := by
  constructor
  · decide
  · decide

/-! ## Structure of one line step -/

lemma addCoords_eq (isR : Bool) (coords : List (Char × List Char)) :
    ∀ b : BlockData,
      addCoords isR b coords =
        { b with
          rapidX := b.rapidX ++ (if isR then coordValsFor 'X' coords else [])
          rapidY := b.rapidY ++ (if isR then coordValsFor 'Y' coords else [])
          rapidZ := b.rapidZ ++ (if isR then coordValsFor 'Z' coords else [])
          cutX := b.cutX ++ (if isR then [] else coordValsFor 'X' coords)
          cutY := b.cutY ++ (if isR then [] else coordValsFor 'Y' coords)
          cutZ := b.cutZ ++ (if isR then [] else coordValsFor 'Z' coords) } := by
  induction coords with
  | nil => intro b; cases isR <;> simp [addCoords, coordValsFor]
  | cons pr rest ih =>
    intro b
    have hstep : addCoords isR b (pr :: rest) =
        addCoords isR
          (match parse_value pr.2 with
           | some v => b.add_val pr.1 v isR
           | none => b) rest := rfl
    rw [hstep, ih]
    cases hp : parse_value pr.2 with
    | none => simp [coordValsFor, hp]
    | some v =>
      by_cases hX : pr.1 = 'X' <;> by_cases hY : pr.1 = 'Y' <;>
        by_cases hZ : pr.1 = 'Z' <;> cases isR <;>
          simp [BlockData.add_val, coordValsFor, hp, hX, hY, hZ]

/-- The full effect of steps 4-6 on the current block. -/
lemma curAfter_eq (machine : String) (lineNum : Nat) (up : List Char)
    (isR g50after : Bool) (b : BlockData) :
    curAfter machine lineNum up isR g50after b =
      { b with
        rapidX := b.rapidX ++ (if isR then coordValsFor 'X' (coordFindAll up) else [])
        rapidY := b.rapidY ++ (if isR then coordValsFor 'Y' (coordFindAll up) else [])
        rapidZ := b.rapidZ ++ (if isR then coordValsFor 'Z' (coordFindAll up) else [])
        cutX := b.cutX ++ (if isR then [] else coordValsFor 'X' (coordFindAll up))
        cutY := b.cutY ++ (if isR then [] else coordValsFor 'Y' (coordFindAll up))
        cutZ := b.cutZ ++ (if isR then [] else coordValsFor 'Z' (coordFindAll up))
        s_vals := b.s_vals ++ sOf up
        f_vals := b.f_vals ++ fOf up
        errors := b.errors ++ errOf machine lineNum up g50after } := by
  unfold curAfter sOf fOf errOf
  rw [addCoords_eq]
  repeat' split
  all_goals simp_all

lemma blockStep_is_rapid (lineNum : Nat) (line : List Char) (st : ScanState) :
    (blockStep lineNum line st).is_rapid = st.is_rapid := by
  unfold blockStep; cases commentSearch line <;> rfl

lemma blockStep_has_g50 (lineNum : Nat) (line : List Char) (st : ScanState) :
    (blockStep lineNum line st).has_g50 = st.has_g50 := by
  unfold blockStep; cases commentSearch line <;> rfl

lemma processLine_of_content (machine : String) (lineNum : Nat)
    (line : List Char) (st : ScanState) (h : ¬ stripContent line = []) :
    processLine machine lineNum line st =
      { done := (blockStep lineNum line st).done
        cur := curAfter machine lineNum (upContent line)
                 (modeAfter (lineGs line) st.is_rapid)
                 (g50After machine (lineGs line) st.has_g50)
                 (blockStep lineNum line st).cur
        has_g50 := g50After machine (lineGs line) st.has_g50
        is_rapid := modeAfter (lineGs line) st.is_rapid } := by
  simp only [processLine, upContent, lineGs]
  rw [if_neg h]

lemma processLine_of_empty (machine : String) (lineNum : Nat)
    (line : List Char) (st : ScanState) (h : stripContent line = []) :
    processLine machine lineNum line st = st := by
  simp only [processLine]
  rw [if_pos h]

/-! ## The header block survives the scan (C7) -/

lemma firstName_cur_update (done : List BlockData) (cur cur' : BlockData)
    (g r g' r' : Bool) (h : cur'.name = cur.name) :
    firstName ⟨done, cur', g', r'⟩ = firstName ⟨done, cur, g, r⟩ := by
  cases done <;> simp [firstName, h]

lemma firstName_blockStep (lineNum : Nat) (line : List Char) (st : ScanState) :
    firstName (blockStep lineNum line st) = firstName st := by
  unfold blockStep
  cases commentSearch line with
  | none => rfl
  | some inner =>
    obtain ⟨done, cur, g, r⟩ := st
    cases done <;> simp [firstName]

lemma curAfter_name (machine : String) (lineNum : Nat) (up : List Char)
    (isR g50after : Bool) (b : BlockData) :
    (curAfter machine lineNum up isR g50after b).name = b.name := by
  rw [curAfter_eq]

lemma firstName_processLine (machine : String) (lineNum : Nat)
    (line : List Char) (st : ScanState) :
    firstName (processLine machine lineNum line st) = firstName st := by
  by_cases h : stripContent line = []
  · rw [processLine_of_empty machine lineNum line st h]
  · rw [processLine_of_content machine lineNum line st h]
    calc firstName ⟨(blockStep lineNum line st).done, curAfter _ _ _ _ _ _, _, _⟩
        = firstName ⟨(blockStep lineNum line st).done, (blockStep lineNum line st).cur,
            (blockStep lineNum line st).has_g50, (blockStep lineNum line st).is_rapid⟩ :=
          firstName_cur_update _ _ _ _ _ _ _ (curAfter_name _ _ _ _ _ _)
      _ = firstName st := firstName_blockStep lineNum line st

lemma firstName_scanFrom (machine : String) :
    ∀ (lines : List (List Char)) (st : ScanState) (i : Nat),
      firstName (scanFrom machine st i lines) = firstName st := by
  intro lines
  induction lines with
  | nil => intro st i; rfl
  | cons l rest ih =>
    intro st i
    show firstName (scanFrom machine (processLine machine i l st) (i + 1) rest) = _
    rw [ih, firstName_processLine]

/-- C7: for every input text and machine profile, `analyze` returns a
non-empty program whose first block is the implicit `Header / Setup`
block. -/
theorem analyze_nonempty_header_first (nc_code machine_type : String) :
    ¬ analyze nc_code machine_type = []
    ∧ ((analyze nc_code machine_type).head?).map BlockData.name =
        some "Header / Setup" := by
  constructor
  · simp [analyze]
  · show firstName (scanFrom machine_type initState 1 (nc_code.data.splitOn '\n')) = _
    rw [firstName_scanFrom]
    rfl

/-! ## Malformed bound entries behave as absent (C8) -/

lemma boundMinStep_sanitize (axis : Char) (p_min : ℚ) (u : String)
    (acc : List Violation × Bool) :
    boundMinStep axis p_min (sanitizeEntry u) acc = boundMinStep axis p_min u acc := by
  unfold sanitizeEntry
  split
  · rename_i hp
    unfold boundMinStep
    by_cases hu : u = ""
    · simp [hu]
    · simp [hu, hp]
  · rfl

lemma boundMaxStep_sanitize (axis : Char) (p_max? : Option ℚ) (u : String)
    (acc : List Violation × Bool) :
    boundMaxStep axis p_max? (sanitizeEntry u) acc = boundMaxStep axis p_max? u acc := by
  unfold sanitizeEntry
  split
  · rename_i hp
    unfold boundMaxStep
    by_cases hu : u = ""
    · simp [hu]
    · cases hm : p_max? <;> simp [hu, hp, hm]
  · rfl

lemma checkAxisStep_sanitize (axis : Char) (stat : Option ℚ × Option ℚ)
    (u_min u_max : String) (acc : List Violation × Bool) :
    checkAxisStep axis stat (sanitizeEntry u_min) (sanitizeEntry u_max) acc =
      checkAxisStep axis stat u_min u_max acc := by
  unfold checkAxisStep
  cases stat.1 with
  | none => rfl
  | some p_min =>
    dsimp only
    rw [boundMinStep_sanitize, boundMaxStep_sanitize]

/-- C8: the limit checker treats a bound entry that does not parse as a
number exactly like an empty (not supplied) entry: replacing every
malformed field by the empty string changes neither the recorded violation
list nor the resulting label, so malformed input never fails the check. -/
theorem malformed_bounds_ignored (gs : GlobalStats) (e : LimitEntries) :
    check gs e = check gs (sanitizeEntries e)
    ∧ check_run gs e = check_run gs (sanitizeEntries e) := by
  have hrun : check_run gs (sanitizeEntries e) = check_run gs e := by
    unfold check_run sanitizeEntries
    rw [checkAxisStep_sanitize, checkAxisStep_sanitize, checkAxisStep_sanitize]
  exact ⟨by simp [check, hrun], hrun.symm⟩

/-! ## Mode, latch and errors across lines and blocks (C2, C5, C10) -/

lemma errorsOf_expand (st : ScanState) :
    errorsOf st = (st.done.map BlockData.errors).flatten ++ st.cur.errors := by
  obtain ⟨d, c, g, r⟩ := st
  simp [errorsOf]

lemma errorsOf_blockStep (lineNum : Nat) (line : List Char) (st : ScanState) :
    errorsOf (blockStep lineNum line st) = errorsOf st := by
  unfold blockStep
  cases commentSearch line with
  | none => rfl
  | some inner => simp [errorsOf_expand, mkBlock]

lemma curAfter_errors (machine : String) (lineNum : Nat) (up : List Char)
    (isR g50after : Bool) (b : BlockData) :
    (curAfter machine lineNum up isR g50after b).errors =
      b.errors ++ errOf machine lineNum up g50after := by
  rw [curAfter_eq]

lemma processLine_errorsOf (machine : String) (lineNum : Nat)
    (line : List Char) (st : ScanState) (h : ¬ stripContent line = []) :
    errorsOf (processLine machine lineNum line st) =
      errorsOf st ++ errOf machine lineNum (upContent line)
        (g50After machine (lineGs line) st.has_g50) := by
  rw [processLine_of_content machine lineNum line st h]
  rw [errorsOf_expand]
  dsimp only
  rw [curAfter_errors, ← List.append_assoc, ← errorsOf_expand,
    errorsOf_blockStep]

lemma g50After_true (machine : String) (gs : List Nat) :
    g50After machine gs true = true := by
  unfold g50After; split <;> rfl

lemma errOf_latch_true (machine : String) (lineNum : Nat) (up : List Char) :
    errOf machine lineNum up true = [] := by
  unfold errOf; simp

lemma processLine_is_rapid (machine : String) (lineNum : Nat)
    (line : List Char) (st : ScanState) :
    (processLine machine lineNum line st).is_rapid =
      if stripContent line = [] then st.is_rapid
      else modeAfter (lineGs line) st.is_rapid := by
  by_cases h : stripContent line = []
  · rw [processLine_of_empty machine lineNum line st h, if_pos h]
  · rw [processLine_of_content machine lineNum line st h, if_neg h]

lemma processLine_has_g50 (machine : String) (lineNum : Nat)
    (line : List Char) (st : ScanState) :
    (processLine machine lineNum line st).has_g50 =
      if stripContent line = [] then st.has_g50
      else g50After machine (lineGs line) st.has_g50 := by
  by_cases h : stripContent line = []
  · rw [processLine_of_empty machine lineNum line st h, if_pos h]
  · rw [processLine_of_content machine lineNum line st h, if_neg h]

lemma processLine_latched (machine : String) (lineNum : Nat)
    (line : List Char) (st : ScanState) (hg : st.has_g50 = true) :
    errorsOf (processLine machine lineNum line st) = errorsOf st
    ∧ (processLine machine lineNum line st).has_g50 = true := by
  by_cases h : stripContent line = []
  · rw [processLine_of_empty machine lineNum line st h]
    exact ⟨rfl, hg⟩
  · constructor
    · rw [processLine_errorsOf machine lineNum line st h, hg, g50After_true,
        errOf_latch_true, List.append_nil]
    · rw [processLine_has_g50, if_neg h, hg, g50After_true]

lemma scanFrom_latched (machine : String) :
    ∀ (lines : List (List Char)) (st : ScanState) (i : Nat),
      st.has_g50 = true →
      errorsOf (scanFrom machine st i lines) = errorsOf st := by
  intro lines
  induction lines with
  | nil => intro st i _; rfl
  | cons l rest ih =>
    intro st i hg
    obtain ⟨he, hg'⟩ := processLine_latched machine i l st hg
    show errorsOf (scanFrom machine (processLine machine i l st) (i + 1) rest) = _
    rw [ih _ _ hg', he]

lemma scanFrom_append (machine : String) :
    ∀ (a b : List (List Char)) (st : ScanState) (i : Nat),
      scanFrom machine st i (a ++ b) =
        scanFrom machine (scanFrom machine st i a) (i + a.length) b := by
  intro a
  induction a with
  | nil => intro b st i; simp [scanFrom]
  | cons l rest ih =>
    intro b st i
    show scanFrom machine (processLine machine i l st) (i + 1) (rest ++ b) = _
    rw [ih]
    have harith : i + 1 + rest.length = i + (rest.length + 1) := by omega
    rw [harith]
    rfl

lemma mem_lineGs_content (x : Nat) (line : List Char) (h : x ∈ lineGs line) :
    ¬ stripContent line = [] := by
  intro hc
  unfold lineGs at h
  rw [hc] at h
  simp [findG, findGAux] at h

lemma processLine_sets_latch (lineNum : Nat) (line : List Char)
    (st : ScanState) (h : 50 ∈ lineGs line) :
    (processLine "FANUC_Lathe" lineNum line st).has_g50 = true := by
  rw [processLine_has_g50, if_neg (mem_lineGs_content 50 line h)]
  unfold g50After
  rw [if_pos ⟨rfl, List.elem_eq_true_of_mem h⟩]

/-- C5: under the lathe profile the spindle-limit latch is monotonic: once
a line whose extracted G-codes contain 50 is processed, the lines after it
contribute no error message at all — in particular no G96-without-G50
violation — however often G96 recurs. -/
theorem g50_suppresses_later_g96 (pre : List (List Char)) (line : List Char)
    (post : List (List Char)) (i : Nat) (st : ScanState)
    (h : 50 ∈ lineGs line) :
    errorsOf (scanFrom "FANUC_Lathe" st i (pre ++ line :: post)) =
      errorsOf (scanFrom "FANUC_Lathe" st i (pre ++ [line])) := by
  rw [scanFrom_append, scanFrom_append]
  show errorsOf (scanFrom "FANUC_Lathe"
      (processLine "FANUC_Lathe" (i + pre.length) line (scanFrom "FANUC_Lathe" st i pre))
      (i + pre.length + 1) post) = _
  rw [scanFrom_latched "FANUC_Lathe" post _ _
    (processLine_sets_latch (i + pre.length) line _ h)]
  rfl

/-- C5 witness: `G50` on line 1 suppresses the `G96` on line 2. -/
theorem g50_suppresses_later_g96_witness :
    errorsOf (scanFrom "FANUC_Lathe" initState 1 ([] ++ ("G50".data :: ["G96".data]))) =
      errorsOf (scanFrom "FANUC_Lathe" initState 1 ([] ++ ["G50".data])) :=
  g50_suppresses_later_g96 [] ("G50".data) ["G96".data] 1 initState (by decide)

lemma modeAfter_cut (gs : List Nat) (r : Bool)
    (h : 1 ∈ gs ∨ 2 ∈ gs ∨ 3 ∈ gs) : modeAfter gs r = false := by
  unfold modeAfter
  have hany : gs.any (fun g => g == 1 || g == 2 || g == 3) = true := by
    rcases h with h | h | h <;> exact List.any_eq_true.2 ⟨_, h, by simp⟩
  simp [hany]

/-- C2: the rapid-check runs first and the cut-check second and
unconditionally, so on a line whose G-codes contain 0 and one of 1, 2, 3
the resulting mode is CUT and every coordinate of that line lands in the
cut lists, leaving the rapid lists untouched. -/
theorem g0_g1_tiebreak (machine : String) (lineNum : Nat) (line : List Char)
    (st : ScanState) (h0 : 0 ∈ lineGs line)
    (h1 : 1 ∈ lineGs line ∨ 2 ∈ lineGs line ∨ 3 ∈ lineGs line) :
    (processLine machine lineNum line st).is_rapid = false
    ∧ (processLine machine lineNum line st).cur.rapidX =
        (blockStep lineNum line st).cur.rapidX
    ∧ (processLine machine lineNum line st).cur.rapidY =
        (blockStep lineNum line st).cur.rapidY
    ∧ (processLine machine lineNum line st).cur.rapidZ =
        (blockStep lineNum line st).cur.rapidZ
    ∧ (processLine machine lineNum line st).cur.cutX =
        (blockStep lineNum line st).cur.cutX
          ++ coordValsFor 'X' (coordFindAll (upContent line))
    ∧ (processLine machine lineNum line st).cur.cutY =
        (blockStep lineNum line st).cur.cutY
          ++ coordValsFor 'Y' (coordFindAll (upContent line))
    ∧ (processLine machine lineNum line st).cur.cutZ =
        (blockStep lineNum line st).cur.cutZ
          ++ coordValsFor 'Z' (coordFindAll (upContent line)) := by
  have hne := mem_lineGs_content 0 line h0
  have hcut := modeAfter_cut (lineGs line) st.is_rapid h1
  rw [processLine_of_content machine lineNum line st hne]
  simp [curAfter_eq, hcut]

/-- C2 witness: `G0 G1 X5` classifies `X5` as CUT. -/
theorem g0_g1_tiebreak_witness :
    (processLine "FANUC_Lathe" 1 ("G0 G1 X5".data) initState).is_rapid = false
    ∧ (processLine "FANUC_Lathe" 1 ("G0 G1 X5".data) initState).cur.rapidX =
        (blockStep 1 ("G0 G1 X5".data) initState).cur.rapidX
    ∧ (processLine "FANUC_Lathe" 1 ("G0 G1 X5".data) initState).cur.rapidY =
        (blockStep 1 ("G0 G1 X5".data) initState).cur.rapidY
    ∧ (processLine "FANUC_Lathe" 1 ("G0 G1 X5".data) initState).cur.rapidZ =
        (blockStep 1 ("G0 G1 X5".data) initState).cur.rapidZ
    ∧ (processLine "FANUC_Lathe" 1 ("G0 G1 X5".data) initState).cur.cutX =
        (blockStep 1 ("G0 G1 X5".data) initState).cur.cutX
          ++ coordValsFor 'X' (coordFindAll (upContent ("G0 G1 X5".data)))
    ∧ (processLine "FANUC_Lathe" 1 ("G0 G1 X5".data) initState).cur.cutY =
        (blockStep 1 ("G0 G1 X5".data) initState).cur.cutY
          ++ coordValsFor 'Y' (coordFindAll (upContent ("G0 G1 X5".data)))
    ∧ (processLine "FANUC_Lathe" 1 ("G0 G1 X5".data) initState).cur.cutZ =
        (blockStep 1 ("G0 G1 X5".data) initState).cur.cutZ
          ++ coordValsFor 'Z' (coordFindAll (upContent ("G0 G1 X5".data))) :=
  g0_g1_tiebreak "FANUC_Lathe" 1 ("G0 G1 X5".data) initState (by decide)
    (Or.inl (by decide))

/-- C10: block creation does not touch the motion mode or the latch — both
components of the state after a line depend only on the comment-stripped
content, never on whether a new block was opened — and a latch raised in an
earlier block keeps suppressing the G96 violation in every later block. -/
theorem scan_state_crosses_blocks (machine : String) (lineNum : Nat)
    (line : List Char) (st : ScanState) (i : Nat)
    (lines : List (List Char)) :
    ((blockStep lineNum line st).is_rapid = st.is_rapid)
    ∧ ((blockStep lineNum line st).has_g50 = st.has_g50)
    ∧ ((processLine machine lineNum line st).is_rapid =
        if stripContent line = [] then st.is_rapid
        else modeAfter (lineGs line) st.is_rapid)
    ∧ ((processLine machine lineNum line st).has_g50 =
        if stripContent line = [] then st.has_g50
        else g50After machine (lineGs line) st.has_g50)
    ∧ (st.has_g50 = true →
        errorsOf (scanFrom "FANUC_Lathe" st i lines) = errorsOf st) :=
  ⟨blockStep_is_rapid lineNum line st, blockStep_has_g50 lineNum line st,
   processLine_is_rapid machine lineNum line st,
   processLine_has_g50 machine lineNum line st,
   fun hg => scanFrom_latched "FANUC_Lathe" lines st i hg⟩

/-- C10 witness: at a comment line, mode and latch pass through unchanged,
and a raised latch silences the later `G96` line. -/
theorem scan_state_crosses_blocks_witness :
    ((blockStep 2 ("(Pocket) G1 X5".data) initState).is_rapid = initState.is_rapid)
    ∧ ((blockStep 2 ("(Pocket) G1 X5".data) initState).has_g50 = initState.has_g50)
    ∧ ((processLine "FANUC_Lathe" 2 ("(Pocket) G1 X5".data) initState).is_rapid =
        if stripContent ("(Pocket) G1 X5".data) = [] then initState.is_rapid
        else modeAfter (lineGs ("(Pocket) G1 X5".data)) initState.is_rapid)
    ∧ ((processLine "FANUC_Lathe" 2 ("(Pocket) G1 X5".data) initState).has_g50 =
        if stripContent ("(Pocket) G1 X5".data) = [] then initState.has_g50
        else g50After "FANUC_Lathe" (lineGs ("(Pocket) G1 X5".data)) initState.has_g50)
    ∧ errorsOf (scanFrom "FANUC_Lathe" ⟨[], mkBlock "Header / Setup", true, true⟩ 1
          ["(Next) G96".data]) =
        errorsOf ⟨[], mkBlock "Header / Setup", true, true⟩ := by
  have h := scan_state_crosses_blocks "FANUC_Lathe" 2 ("(Pocket) G1 X5".data)
    initState 1 ["(Next) G96".data]
  have h' := scan_state_crosses_blocks "FANUC_Lathe" 2 ("(Pocket) G1 X5".data)
    ⟨[], mkBlock "Header / Setup", true, true⟩ 1 ["(Next) G96".data]
  exact ⟨h.1, h.2.1, h.2.2.1, h.2.2.2.1, h'.2.2.2.2 rfl⟩

/-! ## Every matched coordinate token parses (C9) -/

lemma takeWhile_append_all {α : Type} (p : α → Bool) (a b : List α)
    (h : ∀ c ∈ a, p c = true) :
    (a ++ b).takeWhile p = a ++ b.takeWhile p := by
  induction a with
  | nil => simp
  | cons x t ih =>
    have hx := h x (by simp)
    simp [List.takeWhile_cons, hx, ih (fun c hc => h c (by simp [hc]))]

lemma dropWhile_append_all {α : Type} (p : α → Bool) (a b : List α)
    (h : ∀ c ∈ a, p c = true) :
    (a ++ b).dropWhile p = b.dropWhile p := by
  induction a with
  | nil => simp
  | cons x t ih =>
    have hx := h x (by simp)
    simp [List.dropWhile_cons, hx, ih (fun c hc => h c (by simp [hc]))]

lemma dropWhile_all_false {α : Type} (p : α → Bool) (l : List α)
    (h : ∀ c ∈ l, p c = false) : l.dropWhile p = l := by
  cases l with
  | nil => rfl
  | cons x t => simp [List.dropWhile_cons, h x (by simp)]

lemma pyStrip_noop (l : List Char) (h : ∀ c ∈ l, isPySpace c = false) :
    pyStrip l = l := by
  unfold pyStrip
  rw [dropWhile_all_false _ _ h,
    dropWhile_all_false _ _ (fun c hc => h c (List.mem_reverse.1 hc)),
    List.reverse_reverse]

lemma not_space_of_digit (c : Char) (h : c.isDigit = true) :
    isPySpace c = false := by
  unfold isPySpace
  rw [decide_eq_false_iff_not]
  rintro (rfl | rfl | rfl | rfl | rfl | rfl) <;> exact absurd h (by decide)

lemma digit_ne (c d : Char) (h : c.isDigit = true) (hd : d.isDigit = false) :
    ¬ c = d := by
  intro he; subst he; rw [h] at hd; exact absurd hd (by simp)

lemma takeWhile_all_self {α : Type} (p : α → Bool) (l : List α)
    (h : ∀ c ∈ l, p c = true) : l.takeWhile p = l := by
  have := takeWhile_append_all p l [] h
  simpa using this

lemma dropWhile_all_nil {α : Type} (p : α → Bool) (l : List α)
    (h : ∀ c ∈ l, p c = true) : l.dropWhile p = [] := by
  have := dropWhile_append_all p l [] h
  simpa using this

/-- Any string of the shape the coordinate pattern can emit — optional
minus, digits, optionally a dot and digits — is accepted by `float`. -/
lemma pyFloat_shape_isSome (neg dotted : Bool) (ds fp : List Char)
    (hds : ¬ ds = []) (h1 : ∀ c ∈ ds, Char.isDigit c = true)
    (h2 : ∀ c ∈ fp, Char.isDigit c = true) :
    (pyFloat ((if neg = true then ['-'] else []) ++ ds ++
      (if dotted = true then '.' :: fp else []))).isSome = true := by
  obtain ⟨d, ds', rfl⟩ : ∃ d ds', ds = d :: ds' := by
    cases ds with
    | nil => exact absurd rfl hds
    | cons d t => exact ⟨d, t, rfl⟩
  have hd : Char.isDigit d = true := h1 d (by simp)
  have hsign : ¬ (d = '-' ∨ d = '+') := by
    rintro (he | he)
    · exact digit_ne d '-' hd (by decide) he
    · exact digit_ne d '+' hd (by decide) he
  have hTWn : (d :: (ds' ++ ('.' :: fp))).takeWhile Char.isDigit = d :: ds' := by
    have := takeWhile_append_all Char.isDigit (d :: ds') ('.' :: fp) h1
    simpa [List.takeWhile_cons, show Char.isDigit '.' = false from by decide]
      using this
  have hDWn : (d :: (ds' ++ ('.' :: fp))).dropWhile Char.isDigit = '.' :: fp := by
    have := dropWhile_append_all Char.isDigit (d :: ds') ('.' :: fp) h1
    simpa [List.dropWhile_cons, show Char.isDigit '.' = false from by decide]
      using this
  have hTW2 : fp.takeWhile Char.isDigit = fp := takeWhile_all_self _ _ h2
  have hDW2 : fp.dropWhile Char.isDigit = [] := dropWhile_all_nil _ _ h2
  have hTWs : (d :: ds').takeWhile Char.isDigit = d :: ds' :=
    takeWhile_all_self _ _ h1
  have hDWs : (d :: ds').dropWhile Char.isDigit = [] :=
    dropWhile_all_nil _ _ h1
  cases neg <;> cases dotted
  · -- plain digits
    have hstrip : pyStrip (d :: ds') = d :: ds' := by
      apply pyStrip_noop
      intro c hc
      exact not_space_of_digit c (h1 c hc)
    simp only [Bool.false_eq_true, if_false, List.nil_append, List.append_nil]
    simp only [pyFloat, hstrip, List.head?_cons, Option.some.injEq]
    rw [if_neg hsign, hTWs, hDWs]
    simp [parseExp]
  · -- digits, dot, digits
    have hstrip : pyStrip (d :: (ds' ++ ('.' :: fp))) = d :: (ds' ++ ('.' :: fp)) := by
      apply pyStrip_noop
      intro c hc
      simp only [List.mem_cons, List.mem_append] at hc
      rcases hc with rfl | hc | rfl | hc
      · exact not_space_of_digit c hd
      · exact not_space_of_digit c (h1 c (by simp [hc]))
      · decide
      · exact not_space_of_digit c (h2 c hc)
    simp only [Bool.false_eq_true, if_false, eq_self_iff_true, if_true,
      List.nil_append, List.cons_append]
    simp only [pyFloat, hstrip, List.head?_cons, Option.some.injEq]
    rw [if_neg hsign, hTWn, hDWn]
    simp [parseExp, hTW2, hDW2]
  · -- minus, digits
    have hstrip : pyStrip ('-' :: (d :: ds')) = '-' :: (d :: ds') := by
      apply pyStrip_noop
      intro c hc
      rcases List.mem_cons.1 hc with rfl | hc
      · decide
      · exact not_space_of_digit c (h1 c hc)
    simp only [Bool.false_eq_true, if_false, eq_self_iff_true, if_true,
      List.cons_append, List.nil_append, List.append_nil]
    simp only [pyFloat, hstrip, List.head?_cons, Option.some.injEq]
    simp only [eq_self_iff_true, true_or, if_true, List.tail_cons]
    rw [hTWs, hDWs]
    simp [parseExp]
  · -- minus, digits, dot, digits
    have hstrip : pyStrip ('-' :: (d :: (ds' ++ ('.' :: fp)))) =
        '-' :: (d :: (ds' ++ ('.' :: fp))) := by
      apply pyStrip_noop
      intro c hc
      simp only [List.mem_cons, List.mem_append] at hc
      rcases hc with rfl | rfl | hc | rfl | hc
      · decide
      · exact not_space_of_digit c hd
      · exact not_space_of_digit c (h1 c (by simp [hc]))
      · decide
      · exact not_space_of_digit c (h2 c hc)
    simp only [eq_self_iff_true, if_true, List.cons_append, List.nil_append]
    simp only [pyFloat, hstrip, List.head?_cons, Option.some.injEq]
    simp only [eq_self_iff_true, true_or, if_true, List.tail_cons]
    rw [hTWn, hDWn]
    simp [parseExp, hTW2, hDW2]

lemma matchUnsigned_shape (l s r : List Char)
    (h : matchUnsigned l = some (s, r)) :
    ∃ (dotted : Bool) (ds fp : List Char),
      ¬ ds = [] ∧ (∀ c ∈ ds, Char.isDigit c = true)
      ∧ (∀ c ∈ fp, Char.isDigit c = true)
      ∧ s = ds ++ (if dotted = true then '.' :: fp else []) := by
  unfold matchUnsigned at h
  by_cases hds : l.takeWhile Char.isDigit = []
  · rw [if_pos hds] at h; exact absurd h (by simp)
  · rw [if_neg hds] at h
    by_cases hdot : (l.dropWhile Char.isDigit).head? = some '.'
    · rw [if_pos hdot] at h
      simp only [Option.some.injEq, Prod.mk.injEq] at h
      refine ⟨true, l.takeWhile Char.isDigit,
        (l.dropWhile Char.isDigit).tail.takeWhile Char.isDigit, hds,
        (fun c hc => List.mem_takeWhile_imp hc),
        (fun c hc => List.mem_takeWhile_imp hc), ?_⟩
      rw [← h.1]
      simp
    · rw [if_neg hdot] at h
      simp only [Option.some.injEq, Prod.mk.injEq] at h
      refine ⟨false, l.takeWhile Char.isDigit, [], hds,
        (fun c hc => List.mem_takeWhile_imp hc), (by intro c hc; simp at hc), ?_⟩
      rw [← h.1]
      simp

lemma matchNum_isSome (l s r : List Char) (h : matchNum l = some (s, r)) :
    (parse_value s).isSome = true := by
  unfold matchNum at h
  by_cases hneg : l.head? = some '-'
  · rw [if_pos hneg] at h
    cases hmu : matchUnsigned l.tail with
    | none => rw [hmu] at h; exact absurd h (by simp)
    | some p =>
      rw [hmu] at h
      simp only [Option.map_some', Option.some.injEq, Prod.mk.injEq] at h
      obtain ⟨dotted, ds, fp, hds, h1, h2, hshape⟩ :=
        matchUnsigned_shape l.tail p.1 p.2 (by simpa using hmu)
      have := pyFloat_shape_isSome true dotted ds fp hds h1 h2
      show (pyFloat s).isSome = true
      rw [← h.1, hshape]
      simpa using this
  · rw [if_neg hneg] at h
    obtain ⟨dotted, ds, fp, hds, h1, h2, hshape⟩ := matchUnsigned_shape l s r h
    have := pyFloat_shape_isSome false dotted ds fp hds h1 h2
    show (pyFloat s).isSome = true
    rw [hshape]
    simpa using this

/-- Every pair the coordinate scan emits has an axis in X/Y/Z and a number
part `float` accepts. -/
lemma coordFindAllAux_mem :
    ∀ (fuel : Nat) (l : List Char) (pr : Char × List Char),
      pr ∈ coordFindAllAux fuel l →
      (pr.1 = 'X' ∨ pr.1 = 'Y' ∨ pr.1 = 'Z')
      ∧ (parse_value pr.2).isSome = true := by
  intro fuel
  induction fuel with
  | zero => intro l pr hpr; simp [coordFindAllAux] at hpr
  | succ n ih =>
    intro l pr hpr
    cases l with
    | nil => simp [coordFindAllAux] at hpr
    | cons c rest =>
      rw [coordFindAllAux] at hpr
      by_cases hax : c = 'X' ∨ c = 'Y' ∨ c = 'Z'
      · rw [if_pos hax] at hpr
        cases hm : matchNum (rest.dropWhile isPySpace) with
        | none => rw [hm] at hpr; exact ih rest pr hpr
        | some p =>
          rw [hm] at hpr
          rcases List.mem_cons.1 hpr with he | hpr
          · subst he
            exact ⟨hax, matchNum_isSome _ p.1 p.2 (by simpa using hm)⟩
          · exact ih _ pr hpr
      · rw [if_neg hax] at hpr; exact ih rest pr hpr

lemma sampleCount_add_val (b : BlockData) (a : Char) (v : ℚ) (isR : Bool)
    (hax : a = 'X' ∨ a = 'Y' ∨ a = 'Z') :
    sampleCount (b.add_val a v isR) = sampleCount b + 1 := by
  rcases hax with h | h | h <;> subst h <;> cases isR <;>
    simp [BlockData.add_val, sampleCount] <;> omega

lemma sampleCount_addCoords (isR : Bool) :
    ∀ (coords : List (Char × List Char)) (b : BlockData),
      (∀ pr ∈ coords,
        (pr.1 = 'X' ∨ pr.1 = 'Y' ∨ pr.1 = 'Z')
        ∧ (parse_value pr.2).isSome = true) →
      sampleCount (addCoords isR b coords) = sampleCount b + coords.length := by
  intro coords
  induction coords with
  | nil => intro b _; simp [addCoords]
  | cons pr rest ih =>
    intro b hall
    have hpr := hall pr (by simp)
    cases hp : parse_value pr.2 with
    | none => rw [hp] at hpr; simp at hpr
    | some v =>
      simp only [addCoords, List.foldl_cons, hp]
      rw [show List.foldl _ (b.add_val pr.1 v isR) rest =
        addCoords isR (b.add_val pr.1 v isR) rest from rfl]
      rw [ih _ (fun q hq => hall q (by simp [hq])),
        sampleCount_add_val b pr.1 v isR hpr.1]
      simp
      omega

/-- C9: the silent-drop branch of the coordinate dispatch is dead code:
every `(axis, number)` pair the coordinate pattern matches has a number
part `parse_value` accepts, so `add_val` stores exactly one sample per
matched pair. -/
theorem coord_tokens_always_parse (l : List Char) (isR : Bool) (b : BlockData) :
    (coordFindAll l).all (fun pr => (parse_value pr.2).isSome) = true
    ∧ sampleCount (addCoords isR b (coordFindAll l)) =
        sampleCount b + (coordFindAll l).length := by
  constructor
  · rw [List.all_eq_true]
    intro pr hpr
    exact (coordFindAllAux_mem l.length l pr hpr).2
  · exact sampleCount_addCoords isR (coordFindAll l) b
      (fun pr hpr => coordFindAllAux_mem l.length l pr hpr)

/-! ## Coordinate extraction and dispatch (C4) -/

lemma coordValsFor_non_axis (a : Char) (l : List Char)
    (h : ¬ (a = 'X' ∨ a = 'Y' ∨ a = 'Z')) :
    coordValsFor a (coordFindAll l) = [] := by
  unfold coordValsFor
  rw [List.filterMap_eq_nil_iff]
  intro pr hpr
  have hax := (coordFindAllAux_mem l.length l pr hpr).1
  rw [if_neg]
  intro he
  exact h (he ▸ hax)

/-- C4 (counterexample): on the line `X 10` (whitespace between the axis
letter and the number) a sample is recorded, although the line has no axis
letter immediately followed by a number — the implemented pattern is
`[XYZ]\s*[-]?\d+\.?\d*`, with optional whitespace admitted. -/
theorem coord_immediate_cex :
    analyze "X 10" "FANUC_Lathe" =
      [{ name := "Header / Setup", rapidX := [10], rapidY := [], rapidZ := [],
         cutX := [], cutY := [], cutZ := [], s_vals := [], f_vals := [],
         errors := [] }]
    ∧ specCoordFindAll (upContent ("X 10".data)) = []
    ∧ coordFindAll (upContent ("X 10".data)) = [('X', ['1', '0'])] := by
  refine ⟨by decide, by decide, by decide⟩

/-- C4 (amended): a sample is recorded exactly for each occurrence, in the
left-to-right non-overlapping scan of the comment-stripped line, of an axis
letter followed by optional whitespace and then an optionally-minus-signed
decimal number; each value is stored via `add_val` under the motion mode in
effect on that line, and nothing else touches the coordinate lists. -/
theorem coord_dispatch (machine : String) (lineNum : Nat) (line : List Char)
    (st : ScanState) (a : Char) (h : ¬ stripContent line = []) :
    (processLine machine lineNum line st).cur.rapidAt a =
      (blockStep lineNum line st).cur.rapidAt a ++
        (if modeAfter (lineGs line) st.is_rapid
         then coordValsFor a (coordFindAll (upContent line)) else [])
    ∧ (processLine machine lineNum line st).cur.cutAt a =
      (blockStep lineNum line st).cur.cutAt a ++
        (if modeAfter (lineGs line) st.is_rapid
         then [] else coordValsFor a (coordFindAll (upContent line))) := by
  rw [processLine_of_content machine lineNum line st h]
  dsimp only
  rw [curAfter_eq]
  by_cases hX : a = 'X'
  · subst hX; simp [BlockData.rapidAt, BlockData.cutAt]
  · by_cases hY : a = 'Y'
    · subst hY; simp [BlockData.rapidAt, BlockData.cutAt, hX]
    · by_cases hZ : a = 'Z'
      · subst hZ; simp [BlockData.rapidAt, BlockData.cutAt, hX, hY]
      · rw [coordValsFor_non_axis a _ (by tauto)]
        simp [BlockData.rapidAt, BlockData.cutAt, hX, hY, hZ]

/-- C4 witness: the dispatch equation at the line `X 10`, axis X. -/
theorem coord_dispatch_witness :
    (processLine "OSP_Mill" 1 ("X 10".data) initState).cur.rapidAt 'X' =
      (blockStep 1 ("X 10".data) initState).cur.rapidAt 'X' ++
        (if modeAfter (lineGs ("X 10".data)) initState.is_rapid
         then coordValsFor 'X' (coordFindAll (upContent ("X 10".data))) else [])
    ∧ (processLine "OSP_Mill" 1 ("X 10".data) initState).cur.cutAt 'X' =
      (blockStep 1 ("X 10".data) initState).cur.cutAt 'X' ++
        (if modeAfter (lineGs ("X 10".data)) initState.is_rapid
         then [] else coordValsFor 'X' (coordFindAll (upContent ("X 10".data)))) :=
  coord_dispatch "OSP_Mill" 1 ("X 10".data) initState 'X' (by decide)
